import Mathlib

/-!
Verification of the draw-command batching pass of `bevy_nannou`.

The development shallowly embeds the batching core found in
`src/bevy_nannou_render/src/lib.rs` (`prepare_view_mesh` and its local helper
`push_draw_cmd`), together with the data model it operates on.  Parts of the
repository that the batcher calls into but whose sources are not available
(the `nannou_core` geometry helpers, the `draw` module's `Context`, `Scissor`
and command log, and the tessellator behind `RenderPrimitive`) are modelled
from the specification, as indicated in the corresponding doc comments.
Machine integers (`u32`, `i32`) are modelled as `Nat`/`Int`; the values
involved never approach the word size.  Floating point geometry (`f32`) is
modelled with exact rationals: the batching logic only compares, intersects
and linearly maps these values, which is exact arithmetic.
-/

/-- Modelled from the spec: vertex mode metadata returned by the tessellator,
signalling solid colour, plain texture, or glyph-alpha text rendering. -/
inductive VertexMode where
  | color
  | texture
  | text
deriving DecidableEq, Repr

/-- Modelled from the spec: a mesh vertex `{position: Vec3, color: RGBA,
tex_coords: Vec2}`.  Coordinates are exact rationals standing for the `f32`
values; the batcher never inspects them. -/
structure Vertex where
  position : Rat × Rat × Rat
  color : Rat × Rat × Rat × Rat
  tex_coords : Rat × Rat
deriving DecidableEq, Repr

/-- Modelled from the spec: the mesh accumulator `{points, indices}` grown
during a batching pass.  `indices` are `u32` values modelled as `Nat`. -/
structure Mesh where
  points : List Vertex
  indices : List Nat
deriving DecidableEq, Repr

/-- `draw::Mesh::vertex_count`: the number of points in the mesh. -/
def Mesh.vertex_count (m : Mesh) : Nat := m.points.length

/-- Blend factors appearing in the `blend` module of
`src/bevy_nannou_draw/src/render.rs`. -/
inductive BlendFactor where
  | srcAlpha
  | oneMinusSrcAlpha
  | src
  | dst
  | one
  | zero
deriving DecidableEq, Repr

/-- Blend operations appearing in the `blend` module of
`src/bevy_nannou_draw/src/render.rs`. -/
inductive BlendOperation where
  | add
  | subtract
  | reverseSubtract
  | min
  | max
deriving DecidableEq, Repr

/-- `wgpu::BlendComponent` as used by the `blend` constants in
`src/bevy_nannou_draw/src/render.rs`. -/
structure BlendComponent where
  src_factor : BlendFactor
  dst_factor : BlendFactor
  operation : BlendOperation
deriving DecidableEq, Repr

/-- `wgpu::BlendState`: one blend component for colour, one for alpha. -/
structure BlendState where
  color : BlendComponent
  alpha : BlendComponent
deriving DecidableEq, Repr

/-- `blend::BLEND_NORMAL` from `src/bevy_nannou_draw/src/render.rs`. -/
def BLEND_NORMAL : BlendComponent :=
  { src_factor := BlendFactor.srcAlpha
    dst_factor := BlendFactor.oneMinusSrcAlpha
    operation := BlendOperation.add }

/-- `blend::BLEND_ADD` from `src/bevy_nannou_draw/src/render.rs`. -/
def BLEND_ADD : BlendComponent :=
  { src_factor := BlendFactor.src
    dst_factor := BlendFactor.dst
    operation := BlendOperation.add }

/-- `wgpu::PrimitiveTopology` as tracked by the draw context. -/
inductive PrimitiveTopology where
  | pointList
  | lineList
  | lineStrip
  | triangleList
  | triangleStrip
deriving DecidableEq, Repr

/-- `wgpu::TextureFormat`, restricted to the formats the batching pass can
produce: `bevy_default()` (`Rgba8UnormSrgb`), the HDR view format
(`Rgba16Float`) and a depth format. -/
inductive TextureFormat where
  | rgba8UnormSrgb
  | rgba16Float
  | depth32Float
deriving DecidableEq, Repr

/-- Modelled from the spec: `nannou_core::geom` scalar range with a start and
an end point (the `end` field is renamed `stop`, `end` being reserved). -/
structure GRange where
  start : Rat
  stop : Rat
deriving DecidableEq, Repr

/-- Modelled from the spec: `nannou_core::geom::Rect`, a pair of ranges over
the x and y axes. -/
structure Rect where
  x : GRange
  y : GRange
deriving DecidableEq, Repr

/-- Modelled from the spec: `Rect::from_w_h` builds a rectangle of the given
width and height centred at the origin. -/
def Rect.from_w_h (w h : Rat) : Rect :=
  { x := { start := -w / 2, stop := w / 2 }
    y := { start := -h / 2, stop := h / 2 } }

/-- Modelled from the spec: overlap of two scalar ranges; `none` when the
ranges share no interior point. -/
def GRange.overlap (a b : GRange) : Option GRange :=
  let s := max a.start b.start
  let e := min a.stop b.stop
  if s < e then some { start := s, stop := e } else none

/-- Modelled from the spec: rectangle/scissor overlap arithmetic; `none` when
the rectangles do not overlap. -/
def Rect.overlap (a b : Rect) : Option Rect :=
  match GRange.overlap a.x b.x, GRange.overlap a.y b.y with
  | some x, some y => some { x := x, y := y }
  | _, _ => none

/-- `Rect::left`. -/
def Rect.left (r : Rect) : Rat := r.x.start

/-- `Rect::right`. -/
def Rect.right (r : Rect) : Rat := r.x.stop

/-- `Rect::bottom`. -/
def Rect.bottom (r : Rect) : Rat := r.y.start

/-- `Rect::top`. -/
def Rect.top (r : Rect) : Rat := r.y.stop

/-- `Rect::w`: the rectangle's width. -/
def Rect.w (r : Rect) : Rat := r.x.stop - r.x.start

/-- `Rect::h`: the rectangle's height. -/
def Rect.h (r : Rect) : Rat := r.y.stop - r.y.start

/-- `Rect::bottom_left`. -/
def Rect.bottom_left (r : Rect) : Rat × Rat := (r.left, r.bottom)

/-- Modelled from the spec: `draw::Scissor`, the scissor mode tracked by the
draw context — the full window, an explicit rectangle, or a region known to
have no overlap with the window. -/
inductive DrawScissor where
  | full
  | rect (r : Rect)
  | noOverlap
deriving DecidableEq, Repr

/-- Modelled from the spec: a 4x4 affine transform matrix over exact
rationals.  The batcher never inspects it; it is carried as context state. -/
structure Mat4 where
  row0 : Rat × Rat × Rat × Rat
  row1 : Rat × Rat × Rat × Rat
  row2 : Rat × Rat × Rat × Rat
  row3 : Rat × Rat × Rat × Rat
deriving DecidableEq, Repr

/-- The identity transform. -/
def Mat4.identity : Mat4 :=
  { row0 := (1, 0, 0, 0)
    row1 := (0, 1, 0, 0)
    row2 := (0, 0, 1, 0)
    row3 := (0, 0, 0, 1) }

/-- Modelled from the spec: `draw::Context`, the state replayed by `Context`
commands — transform, scissor, blend and topology. -/
structure Context where
  transform : Mat4
  scissor : DrawScissor
  blend : BlendState
  topology : PrimitiveTopology
deriving DecidableEq, Repr

/-- Modelled from the spec: `draw::Context::default()` — identity transform,
full-window scissor, default (normal alpha) blend, triangle-list topology. -/
def default_context : Context :=
  { transform := Mat4.identity
    scissor := DrawScissor.full
    blend := { color := BLEND_NORMAL, alpha := BLEND_NORMAL }
    topology := PrimitiveTopology.triangleList }

/-- Modelled from the spec (Tessellator contract): a primitive is abstracted
by its tessellation outcome — the vertices and indices
`render_primitive` appends to the mesh accumulator and the vertex mode it
returns.  The contract that indices are appended whenever vertices are is
*not* baked in: the batcher asserts it. -/
structure RenderPrim where
  verts_added : List Vertex
  indices_added : List Nat
  vertex_mode : VertexMode
deriving DecidableEq, Repr

/-- Modelled from the spec: `RenderPrimitive::render_primitive` appends the
primitive's tessellated vertices and indices to the mesh in place and
returns the vertex mode of the new vertices. -/
def render_primitive (prim : RenderPrim) (m : Mesh) : Mesh × VertexMode :=
  ({ points := m.points ++ prim.verts_added
     indices := m.indices ++ prim.indices_added },
   prim.vertex_mode)

/-- Modelled from the spec: a recorded draw-command — a context replacement
or a primitive to tessellate. -/
inductive DrawCommand where
  | context (ctxt : Context)
  | primitive (prim : RenderPrim)
deriving DecidableEq, Repr

/-- `NannouPipelineKey` (see `new_pipeline_key` in
`src/bevy_nannou_render/src/lib.rs`): the parameters specializing a GPU
pipeline. -/
structure NannouPipelineKey where
  output_color_format : TextureFormat
  sample_count : Nat
  depth_format : TextureFormat
  topology : PrimitiveTopology
  blend_state : BlendState
deriving DecidableEq, Repr

/-- The pixel-space scissor rectangle sent in `SetScissor` commands
(`Scissor` in `bevy_nannou_draw::draw::render`); all fields are `u32`. -/
structure Scissor where
  left : Nat
  bottom : Nat
  width : Nat
  height : Nat
deriving DecidableEq, Repr

/-- `RenderCommand` from `src/bevy_nannou_render/src/lib.rs`: commands that
map to wgpu encodable commands.  The cached pipeline id and the image handle
are modelled as `Nat` identifiers; `DrawIndexed` carries `start_vertex : i32`
and the index range's two `u32` endpoints. -/
inductive RenderCommand where
  | setPipeline (id : Nat)
  | setBindGroup (texture : Nat)
  | setScissor (s : Scissor)
  | drawIndexed (start_vertex : Int) (start_index : Nat) (stop_index : Nat)
deriving DecidableEq, Repr

/-- The frame-level parameters of one `prepare_view_mesh` pass: whether the
view is HDR, the MSAA sample count, the depth texture's format, the default
texture handle, and the window's physical size in pixels. -/
structure FrameParams where
  hdr : Bool
  sample_count : Nat
  depth_format : TextureFormat
  default_texture : Nat
  w_px : Nat
  h_px : Nat
deriving DecidableEq, Repr

/-- The mutable state threaded through the command loop of
`prepare_view_mesh`: the mesh and command list being built, the tracked
current context, the start-index cursor, and the tracked current
pipeline/scissor/texture (the texture tracker is declared but never written
in the source; its assignment is commented out). -/
structure BatchState where
  mesh : Mesh
  render_commands : List RenderCommand
  curr_ctxt : Context
  curr_start_index : Nat
  curr_pipeline_id : Option Nat
  curr_scissor : Option DrawScissor
  curr_texture_handle : Option Nat
  vertex_mode_buffer : List VertexMode
deriving DecidableEq, Repr

/-- `InconsistentMeshState`: the fatal invariant violation raised by the
`assert_eq!` in `prepare_view_mesh` when vertices were submitted during
`render` without submitting indices. -/
inductive BatchError where
  | inconsistentMeshState
deriving DecidableEq, Repr

/-- `push_draw_cmd` from `src/bevy_nannou_render/src/lib.rs`: push a
`DrawIndexed` covering `curr_start_index..stop_index` and advance the cursor,
unless the range is empty, in which case nothing is pushed.  Returns the new
cursor and command list. -/
def push_draw_cmd (curr_start_index stop_index : Nat)
    (render_commands : List RenderCommand) : Nat × List RenderCommand :=
  if curr_start_index < stop_index then
    (stop_index,
     render_commands ++ [RenderCommand.drawIndexed 0 curr_start_index stop_index])
  else
    (curr_start_index, render_commands)

/-- The `NannouPipelineKey` computed for a primitive in `prepare_view_mesh`:
frame-level colour format (HDR or default), sample count and depth format,
plus the tracked context's topology and blend state. -/
def new_pipeline_key (fp : FrameParams) (ctxt : Context) : NannouPipelineKey :=
  { output_color_format :=
      if fp.hdr then TextureFormat.rgba16Float else TextureFormat.rgba8UnormSrgb
    sample_count := fp.sample_count
    depth_format := fp.depth_format
    topology := ctxt.topology
    blend_state := ctxt.blend }

/-- `px_to_pt` with the source's fixed `scale_factor = 1.0`. -/
def px_to_pt (s : Nat) : Rat := (s : Rat)

/-- `pt_to_px` with the source's fixed `scale_factor = 1.0`: round to the
nearest integer and convert to `u32`. -/
def pt_to_px (s : Rat) : Nat := (round s).toNat

/-- Modelled from the spec: `nannou_core::math::map_range`, linear
interpolation of `val` from the input range onto the output range. -/
def map_range (val in_min in_max out_min out_max : Rat) : Rat :=
  out_min + (out_max - out_min) * ((val - in_min) / (in_max - in_min))

/-- The conversion of a mapped coordinate to `u32` (truncation, clamped below
at zero as the unsigned cast saturates). -/
def rat_to_u32 (r : Rat) : Nat :=
  if r < 0 then 0 else (Rat.floor r).toNat

/-- The full window rectangle of the pass
(`Rect::from_w_h(px_to_pt(w_px), px_to_pt(h_px))`). -/
def full_rect (fp : FrameParams) : Rect :=
  Rect.from_w_h (px_to_pt fp.w_px) (px_to_pt fp.h_px)

/-- `window_to_scissor` from `prepare_view_mesh`: map a window-space point
into pixel coordinates with the origin at the window's bottom left. -/
def window_to_scissor (fp : FrameParams) (v : Rat × Rat) : Nat × Nat :=
  (rat_to_u32 (map_range v.1 (full_rect fp).left (full_rect fp).right 0 (fp.w_px : Rat)),
   rat_to_u32 (map_range v.2 (full_rect fp).bottom (full_rect fp).top 0 (fp.h_px : Rat)))

/-- The pixel-space scissor sent by a `SetScissor` command: the tracked
scissor intersected with the full window rectangle (a `NoOverlap` scissor, or
a `Rect` with no overlap, collapses to `Rect::from_w_h(0.0, 0.0)`), then
converted to pixel coordinates. -/
def scissor_px (fp : FrameParams) (s : DrawScissor) : Scissor :=
  let rect :=
    match s with
    | DrawScissor.full => full_rect fp
    | DrawScissor.rect r => (Rect.overlap (full_rect fp) r).getD (Rect.from_w_h 0 0)
    | DrawScissor.noOverlap => Rect.from_w_h 0 0
  let lb := window_to_scissor fp rect.bottom_left
  { left := lb.1
    bottom := lb.2
    width := pt_to_px rect.w
    height := pt_to_px rect.h }

/-- The emission path of `prepare_view_mesh` for a primitive whose rendering
grew the mesh's indices: compute the new pipeline key and scissor, flush the
pending draw range if either changed, then push `SetPipeline` (if changed),
`SetBindGroup` (always, with the default texture) and `SetScissor` (if
changed), and extend the vertex-mode channel for the new vertices. -/
def primitive_emit (fp : FrameParams) (specialize : NannouPipelineKey → Nat)
    (s : BatchState) (prim : RenderPrim) : BatchState :=
  let prev_index_count := s.mesh.indices.length
  let mesh := (render_primitive prim s.mesh).1
  let vertex_mode := (render_primitive prim s.mesh).2
  let new_pipeline_id := specialize (new_pipeline_key fp s.curr_ctxt)
  let new_scissor := s.curr_ctxt.scissor
  let flushed :=
    if some new_scissor ≠ s.curr_scissor ∨ some new_pipeline_id ≠ s.curr_pipeline_id then
      push_draw_cmd s.curr_start_index prev_index_count s.render_commands
    else
      (s.curr_start_index, s.render_commands)
  let after_pipeline :=
    if some new_pipeline_id ≠ s.curr_pipeline_id then
      (some new_pipeline_id, flushed.2 ++ [RenderCommand.setPipeline new_pipeline_id])
    else
      (s.curr_pipeline_id, flushed.2)
  let with_bind_group := after_pipeline.2 ++ [RenderCommand.setBindGroup fp.default_texture]
  let after_scissor :=
    if some new_scissor ≠ s.curr_scissor then
      (some new_scissor, with_bind_group ++ [RenderCommand.setScissor (scissor_px fp new_scissor)])
    else
      (s.curr_scissor, with_bind_group)
  let new_vs := mesh.points.length - s.vertex_mode_buffer.length
  { mesh := mesh
    render_commands := after_scissor.2
    curr_ctxt := s.curr_ctxt
    curr_start_index := flushed.1
    curr_pipeline_id := after_pipeline.1
    curr_scissor := after_scissor.1
    curr_texture_handle := s.curr_texture_handle
    vertex_mode_buffer := s.vertex_mode_buffer ++ List.replicate new_vs vertex_mode }

/-- One iteration of the command loop in `prepare_view_mesh`: a `Context`
command replaces the tracked context; a `Primitive` command is tessellated,
then either skipped (no new indices — asserting that no vertices were added
either) or run through the emission path. -/
def process_cmd (fp : FrameParams) (specialize : NannouPipelineKey → Nat)
    (s : BatchState) : DrawCommand → Except BatchError BatchState
  | DrawCommand.context ctxt => Except.ok { s with curr_ctxt := ctxt }
  | DrawCommand.primitive prim =>
    let prev_index_count := s.mesh.indices.length
    let prev_vert_count := s.mesh.vertex_count
    let mesh := (render_primitive prim s.mesh).1
    if prev_index_count = mesh.indices.length then
      if prev_vert_count = mesh.vertex_count then
        Except.ok { s with mesh := mesh }
      else
        Except.error BatchError.inconsistentMeshState
    else
      Except.ok (primitive_emit fp specialize s prim)

/-- The command loop of `prepare_view_mesh` over the drained commands. -/
def run_cmds (fp : FrameParams) (specialize : NannouPipelineKey → Nat) :
    BatchState → List DrawCommand → Except BatchError BatchState
  | s, [] => Except.ok s
  | s, c :: cs =>
    match process_cmd fp specialize s c with
    | Except.ok s' => run_cmds fp specialize s' cs
    | Except.error e => Except.error e

/-- The state at the top of `prepare_view_mesh`: empty mesh and command
list, default context, cursor at zero, no tracked pipeline/scissor/texture.
The vertex-mode buffer lives on the pipeline resource, so its initial
contents are a parameter of the pass. -/
def init_state (vmb : List VertexMode) : BatchState :=
  { mesh := { points := [], indices := [] }
    render_commands := []
    curr_ctxt := default_context
    curr_start_index := 0
    curr_pipeline_id := none
    curr_scissor := none
    curr_texture_handle := none
    vertex_mode_buffer := vmb }

/-- The trailing flush of `prepare_view_mesh`: insert the final draw command
if there is still some drawing to be done. -/
def finish_pass (s : BatchState) : BatchState :=
  let flushed := push_draw_cmd s.curr_start_index s.mesh.indices.length s.render_commands
  { s with curr_start_index := flushed.1, render_commands := flushed.2 }

/-- The whole batching pass of `prepare_view_mesh` for one view: fold the
command loop over the drained commands from the initial state, then perform
the trailing flush.  The `assert_eq!` failure is modelled as an error. -/
def prepare_view_mesh (fp : FrameParams) (specialize : NannouPipelineKey → Nat)
    (vmb : List VertexMode) (cmds : List DrawCommand) : Except BatchError BatchState :=
  Except.map finish_pass (run_cmds fp specialize (init_state vmb) cmds)

/-- The index ranges of the `DrawIndexed` commands of a command list, in
order. -/
def draw_ranges : List RenderCommand → List (Nat × Nat)
  | [] => []
  | RenderCommand.drawIndexed _ a b :: t => (a, b) :: draw_ranges t
  | RenderCommand.setPipeline _ :: t => draw_ranges t
  | RenderCommand.setBindGroup _ :: t => draw_ranges t
  | RenderCommand.setScissor _ :: t => draw_ranges t

/-- `chain_from k l e`: the ranges in `l` tile the interval from `k` to `e`
contiguously, each range non-empty. -/
def chain_from : Nat → List (Nat × Nat) → Nat → Prop
  | k, [], e => e = k
  | k, (a, b) :: t, e => a = k ∧ k < b ∧ chain_from b t e

/-- The total number of indices appended by a list of primitives. -/
def total_indices (ps : List RenderPrim) : Nat :=
  (ps.map (fun p => p.indices_added.length)).sum

/-- The payload of the last `Context` command of a drained sequence, or the
default context when there is none. -/
def last_ctxt (cmds : List DrawCommand) : Context :=
  cmds.foldl
    (fun acc c =>
      match c with
      | DrawCommand.context ctxt => ctxt
      | DrawCommand.primitive _ => acc)
    default_context

/-- Modelled from the spec: the Draw Command Log starts empty. -/
def empty_log : List DrawCommand := []

/-- Modelled from the spec: `record` appends a command to the log in call
order. -/
def record_cmd (log : List DrawCommand) (cmd : DrawCommand) : List DrawCommand :=
  log ++ [cmd]

/-- Modelled from the spec: `drain_commands` yields all recorded entries in
FIFO order and leaves the log empty (`std::mem::take` semantics, as in
`update_draw_mesh` in `src/bevy_nannou_draw/src/render.rs`).  The first
component is the drained sequence, the second the log left behind. -/
def drain_commands (log : List DrawCommand) : List DrawCommand × List DrawCommand :=
  (log, [])

/-- A state whose tracked pipeline and scissor match what the next primitive
will compute from the tracked context: a further primitive under the same
context triggers no state-change commands other than the unconditional
`SetBindGroup`. -/
def steady (fp : FrameParams) (specialize : NannouPipelineKey → Nat) (s : BatchState) : Prop :=
  s.curr_pipeline_id = some (specialize (new_pipeline_key fp s.curr_ctxt)) ∧
  s.curr_scissor = some s.curr_ctxt.scissor

/-- The draw-range bookkeeping invariant of the pass: the emitted
`DrawIndexed` ranges tile `0..curr_start_index` contiguously and
non-emptily, the cursor never exceeds the mesh's index count, and every
emitted `DrawIndexed` has `start_vertex = 0`. -/
def ranges_ok (s : BatchState) : Prop :=
  chain_from 0 (draw_ranges s.render_commands) s.curr_start_index ∧
  s.curr_start_index ≤ s.mesh.indices.length ∧
  ∀ v a b, RenderCommand.drawIndexed v a b ∈ s.render_commands → v = 0

/-- The command-list prefix invariant of the pass: either nothing has been
emitted yet (and the trackers are still fresh and the mesh has no indices),
or the list begins with `SetPipeline`, `SetBindGroup`, `SetScissor`. -/
def commands_headed (s : BatchState) : Prop :=
  (s.render_commands = [] ∧ s.curr_pipeline_id = none ∧ s.curr_scissor = none ∧
   s.curr_start_index = 0 ∧ s.mesh.indices.length = 0) ∨
  (∃ i t r rest,
    s.render_commands =
      RenderCommand.setPipeline i :: RenderCommand.setBindGroup t ::
        RenderCommand.setScissor r :: rest)

/-- The vertex-mode channel invariant: one buffer entry per mesh vertex. -/
def vmb_parallel (s : BatchState) : Prop :=
  s.vertex_mode_buffer.length = s.mesh.points.length

/-- Concrete frame parameters used by the witnesses: a non-HDR 100x80 window
with 4x MSAA. -/
def fpW : FrameParams :=
  { hdr := false
    sample_count := 4
    depth_format := TextureFormat.depth32Float
    default_texture := 7
    w_px := 100
    h_px := 80 }

/-- Concrete pipeline specialization used by the witnesses. -/
def spW : NannouPipelineKey → Nat := fun _ => 3

/-- A concrete vertex used by the witnesses. -/
def vW : Vertex :=
  { position := (0, 0, 0), color := (1, 1, 1, 1), tex_coords := (0, 0) }

/-- A concrete primitive appending three vertices and three indices. -/
def pW1 : RenderPrim :=
  { verts_added := [vW, vW, vW]
    indices_added := [0, 1, 2]
    vertex_mode := VertexMode.color }

/-- A second concrete primitive appending three vertices and three
indices. -/
def pW2 : RenderPrim :=
  { verts_added := [vW, vW, vW]
    indices_added := [3, 4, 5]
    vertex_mode := VertexMode.texture }

/-- A degenerate primitive that appends a vertex but no indices, violating
the tessellator contract. -/
def pW0 : RenderPrim :=
  { verts_added := [vW]
    indices_added := []
    vertex_mode := VertexMode.color }

/-- The default context, as a named witness context. -/
def cW : Context := default_context

/-- The witness context with the scissor replaced by `NoOverlap` (all other
fields unchanged). -/
def cW2 : Context := { cW with scissor := DrawScissor.noOverlap }

/-- A concrete drained command sequence: a context, a primitive, a
scissor-only context change, a second primitive. -/
def cmdsW : List DrawCommand :=
  [DrawCommand.context cW, DrawCommand.primitive pW1,
   DrawCommand.context cW2, DrawCommand.primitive pW2]

/-- The state produced by the batching pass on the witness input. -/
def stW : BatchState :=
  match prepare_view_mesh fpW spW [] cmdsW with
  | Except.ok s => s
  | Except.error _ => init_state []

/-- The state produced by processing the single witness primitive from the
initial state. -/
def stW6 : BatchState :=
  match process_cmd fpW spW (init_state []) (DrawCommand.primitive pW1) with
  | Except.ok s => s
  | Except.error _ => init_state []

/-- The drained sequence of the C2 counterexample: one primitive rendered
entirely under a `NoOverlap` scissor. -/
def cmdsX : List DrawCommand :=
  [DrawCommand.context cW2, DrawCommand.primitive pW1]

theorem push_draw_cmd_pos {a b : Nat} (rc : List RenderCommand) (h : a < b) :
    push_draw_cmd a b rc = (b, rc ++ [RenderCommand.drawIndexed 0 a b]) := by
  simp [push_draw_cmd, h]

theorem push_draw_cmd_neg {a b : Nat} (rc : List RenderCommand) (h : ¬ a < b) :
    push_draw_cmd a b rc = (a, rc) := by
  simp [push_draw_cmd, h]

theorem draw_ranges_append (xs ys : List RenderCommand) :
    draw_ranges (xs ++ ys) = draw_ranges xs ++ draw_ranges ys := by
  induction xs with
  | nil => rfl
  | cons c t ih => cases c <;> simp [draw_ranges, ih]

theorem draw_ranges_single_set_pipeline (i : Nat) :
    draw_ranges [RenderCommand.setPipeline i] = [] := rfl

theorem draw_ranges_single_bind_group (t : Nat) :
    draw_ranges [RenderCommand.setBindGroup t] = [] := rfl

theorem draw_ranges_single_scissor (r : Scissor) :
    draw_ranges [RenderCommand.setScissor r] = [] := rfl

theorem mem_draw_ranges {v : Int} {a b : Nat} :
    ∀ {l : List RenderCommand}, RenderCommand.drawIndexed v a b ∈ l → (a, b) ∈ draw_ranges l := by
  intro l
  induction l with
  | nil => intro h; cases h
  | cons c t ih =>
    intro h
    rcases List.mem_cons.1 h with h1 | h1
    · subst h1; simp [draw_ranges]
    · have h2 := ih h1
      cases c <;> simp [draw_ranges, h2]

theorem chain_from_le : ∀ {l : List (Nat × Nat)} {k e : Nat}, chain_from k l e → k ≤ e := by
  intro l
  induction l with
  | nil => intro k e h; exact (h : e = k) ▸ Nat.le_refl _
  | cons ab t ih =>
    intro k e h
    obtain ⟨ha, hk, hrest⟩ := h
    exact Nat.le_trans (Nat.le_of_lt hk) (ih hrest)

theorem chain_from_append_one {l : List (Nat × Nat)} {k a b e : Nat}
    (h : chain_from k l a) (hab : a < b) (he : e = b) :
    chain_from k (l ++ [(a, b)]) e := by
  induction l generalizing k with
  | nil =>
    have hk : a = k := h
    subst hk
    exact ⟨rfl, hab, he⟩
  | cons cd t ih =>
    obtain ⟨hc, hlt, hrest⟩ := h
    exact ⟨hc, hlt, ih hrest⟩

theorem chain_from_mem : ∀ {l : List (Nat × Nat)} {k e : Nat}, chain_from k l e →
    ∀ ab ∈ l, k ≤ ab.1 ∧ ab.1 < ab.2 ∧ ab.2 ≤ e := by
  intro l
  induction l with
  | nil => intro k e _ ab hab; cases hab
  | cons cd t ih =>
    intro k e h ab hab
    obtain ⟨hc, hlt, hrest⟩ := h
    rcases List.mem_cons.1 hab with h1 | h1
    · subst h1
      refine ⟨Nat.le_of_eq hc.symm, ?_, chain_from_le hrest⟩
      rw [hc]; exact hlt
    · obtain ⟨ha, h2, h3⟩ := ih hrest ab h1
      exact ⟨Nat.le_trans (Nat.le_of_lt hlt) ha, h2, h3⟩

theorem total_indices_nil : total_indices [] = 0 := rfl

theorem total_indices_cons (p : RenderPrim) (ps : List RenderPrim) :
    total_indices (p :: ps) = p.indices_added.length + total_indices ps := by
  simp [total_indices]

theorem process_cmd_context (fp : FrameParams) (sp : NannouPipelineKey → Nat)
    (s : BatchState) (ctxt : Context) :
    process_cmd fp sp s (DrawCommand.context ctxt) = Except.ok { s with curr_ctxt := ctxt } := rfl

theorem process_cmd_prim_skip (fp : FrameParams) (sp : NannouPipelineKey → Nat)
    (s : BatchState) (prim : RenderPrim)
    (hi : prim.indices_added = []) (hv : prim.verts_added = []) :
    process_cmd fp sp s (DrawCommand.primitive prim) = Except.ok s := by
  simp [process_cmd, render_primitive, hi, hv, Mesh.vertex_count]

theorem process_cmd_prim_degenerate (fp : FrameParams) (sp : NannouPipelineKey → Nat)
    (s : BatchState) (prim : RenderPrim)
    (hi : prim.indices_added = []) (hv : prim.verts_added ≠ []) :
    process_cmd fp sp s (DrawCommand.primitive prim) =
      Except.error BatchError.inconsistentMeshState := by
  have hlen : prim.verts_added.length ≠ 0 := by simpa [List.length_eq_zero] using hv
  simp [process_cmd, render_primitive, hi, Mesh.vertex_count, hlen]

theorem process_cmd_prim_grow (fp : FrameParams) (sp : NannouPipelineKey → Nat)
    (s : BatchState) (prim : RenderPrim) (h : prim.indices_added ≠ []) :
    process_cmd fp sp s (DrawCommand.primitive prim) =
      Except.ok (primitive_emit fp sp s prim) := by
  have hlen : prim.indices_added.length ≠ 0 := by simpa [List.length_eq_zero] using h
  simp [process_cmd, render_primitive, hlen]

theorem primitive_emit_mesh (fp : FrameParams) (sp : NannouPipelineKey → Nat)
    (s : BatchState) (prim : RenderPrim) :
    (primitive_emit fp sp s prim).mesh = (render_primitive prim s.mesh).1 := rfl

theorem primitive_emit_ctxt (fp : FrameParams) (sp : NannouPipelineKey → Nat)
    (s : BatchState) (prim : RenderPrim) :
    (primitive_emit fp sp s prim).curr_ctxt = s.curr_ctxt := rfl

theorem primitive_emit_texture (fp : FrameParams) (sp : NannouPipelineKey → Nat)
    (s : BatchState) (prim : RenderPrim) :
    (primitive_emit fp sp s prim).curr_texture_handle = s.curr_texture_handle := rfl

theorem primitive_emit_vmb (fp : FrameParams) (sp : NannouPipelineKey → Nat)
    (s : BatchState) (prim : RenderPrim) :
    (primitive_emit fp sp s prim).vertex_mode_buffer =
      s.vertex_mode_buffer ++
        List.replicate ((s.mesh.points ++ prim.verts_added).length - s.vertex_mode_buffer.length)
          prim.vertex_mode := rfl

theorem primitive_emit_steady (fp : FrameParams) (sp : NannouPipelineKey → Nat)
    (s : BatchState) (prim : RenderPrim)
    (hp : s.curr_pipeline_id = some (sp (new_pipeline_key fp s.curr_ctxt)))
    (hs : s.curr_scissor = some s.curr_ctxt.scissor) :
    primitive_emit fp sp s prim =
      { s with
        mesh := (render_primitive prim s.mesh).1
        render_commands := s.render_commands ++ [RenderCommand.setBindGroup fp.default_texture]
        vertex_mode_buffer := s.vertex_mode_buffer ++
          List.replicate ((s.mesh.points ++ prim.verts_added).length - s.vertex_mode_buffer.length)
            prim.vertex_mode } := by
  simp [primitive_emit, hp, hs, render_primitive]

theorem primitive_emit_fresh (fp : FrameParams) (sp : NannouPipelineKey → Nat)
    (s : BatchState) (prim : RenderPrim)
    (hp : s.curr_pipeline_id = none) (hs : s.curr_scissor = none)
    (hc : s.curr_start_index = s.mesh.indices.length) :
    primitive_emit fp sp s prim =
      { s with
        mesh := (render_primitive prim s.mesh).1
        render_commands := s.render_commands ++
          [RenderCommand.setPipeline (sp (new_pipeline_key fp s.curr_ctxt)),
           RenderCommand.setBindGroup fp.default_texture,
           RenderCommand.setScissor (scissor_px fp s.curr_ctxt.scissor)]
        curr_pipeline_id := some (sp (new_pipeline_key fp s.curr_ctxt))
        curr_scissor := some s.curr_ctxt.scissor
        vertex_mode_buffer := s.vertex_mode_buffer ++
          List.replicate ((s.mesh.points ++ prim.verts_added).length - s.vertex_mode_buffer.length)
            prim.vertex_mode } := by
  simp [primitive_emit, hp, hs, render_primitive, push_draw_cmd, hc]

theorem primitive_emit_scissor_change (fp : FrameParams) (sp : NannouPipelineKey → Nat)
    (s : BatchState) (prim : RenderPrim)
    (hp : s.curr_pipeline_id = some (sp (new_pipeline_key fp s.curr_ctxt)))
    (hs : some s.curr_ctxt.scissor ≠ s.curr_scissor) :
    primitive_emit fp sp s prim =
      { s with
        mesh := (render_primitive prim s.mesh).1
        render_commands :=
          (push_draw_cmd s.curr_start_index s.mesh.indices.length s.render_commands).2 ++
            [RenderCommand.setBindGroup fp.default_texture,
             RenderCommand.setScissor (scissor_px fp s.curr_ctxt.scissor)]
        curr_start_index :=
          (push_draw_cmd s.curr_start_index s.mesh.indices.length s.render_commands).1
        curr_scissor := some s.curr_ctxt.scissor
        vertex_mode_buffer := s.vertex_mode_buffer ++
          List.replicate ((s.mesh.points ++ prim.verts_added).length - s.vertex_mode_buffer.length)
            prim.vertex_mode } := by
  simp [primitive_emit, hp, hs, render_primitive]

theorem push_draw_cmd_snd_shape (a b : Nat) (rc : List RenderCommand) :
    ∃ d, (d = [] ∨ ∃ x y : Nat, d = [RenderCommand.drawIndexed 0 x y]) ∧
      (push_draw_cmd a b rc).2 = rc ++ d := by
  by_cases h : a < b
  · exact ⟨[RenderCommand.drawIndexed 0 a b], Or.inr ⟨a, b, rfl⟩, by simp [push_draw_cmd, h]⟩
  · exact ⟨[], Or.inl rfl, by simp [push_draw_cmd, h]⟩

theorem primitive_emit_commands_shape (fp : FrameParams) (sp : NannouPipelineKey → Nat)
    (s : BatchState) (prim : RenderPrim) :
    ∃ d pl sc,
      (d = [] ∨ ∃ x y : Nat, d = [RenderCommand.drawIndexed 0 x y]) ∧
      (pl = [] ∨ ∃ i, pl = [RenderCommand.setPipeline i]) ∧
      (sc = [] ∨ ∃ r, sc = [RenderCommand.setScissor r]) ∧
      (primitive_emit fp sp s prim).render_commands =
        s.render_commands ++ d ++ pl ++
          RenderCommand.setBindGroup fp.default_texture :: sc := by
  obtain ⟨d, hd, hpush⟩ :=
    push_draw_cmd_snd_shape s.curr_start_index s.mesh.indices.length s.render_commands
  by_cases hsc : some s.curr_ctxt.scissor ≠ s.curr_scissor
  · by_cases hpl : some (sp (new_pipeline_key fp s.curr_ctxt)) ≠ s.curr_pipeline_id
    · refine ⟨d, [RenderCommand.setPipeline (sp (new_pipeline_key fp s.curr_ctxt))],
        [RenderCommand.setScissor (scissor_px fp s.curr_ctxt.scissor)],
        hd, Or.inr ⟨_, rfl⟩, Or.inr ⟨_, rfl⟩, ?_⟩
      simp [primitive_emit, hsc, hpl, hpush]
    · refine ⟨d, [],
        [RenderCommand.setScissor (scissor_px fp s.curr_ctxt.scissor)],
        hd, Or.inl rfl, Or.inr ⟨_, rfl⟩, ?_⟩
      simp [primitive_emit, hsc, hpl, hpush]
  · by_cases hpl : some (sp (new_pipeline_key fp s.curr_ctxt)) ≠ s.curr_pipeline_id
    · refine ⟨d, [RenderCommand.setPipeline (sp (new_pipeline_key fp s.curr_ctxt))], [],
        hd, Or.inr ⟨_, rfl⟩, Or.inl rfl, ?_⟩
      simp [primitive_emit, hsc, hpl, hpush]
    · refine ⟨[], [], [], Or.inl rfl, Or.inl rfl, Or.inl rfl, ?_⟩
      simp [primitive_emit, hsc, hpl]

theorem primitive_emit_ranges (fp : FrameParams) (sp : NannouPipelineKey → Nat)
    (s : BatchState) (prim : RenderPrim) :
    (draw_ranges (primitive_emit fp sp s prim).render_commands =
       draw_ranges s.render_commands ∧
     (primitive_emit fp sp s prim).curr_start_index = s.curr_start_index) ∨
    (s.curr_start_index < s.mesh.indices.length ∧
     draw_ranges (primitive_emit fp sp s prim).render_commands =
       draw_ranges s.render_commands ++ [(s.curr_start_index, s.mesh.indices.length)] ∧
     (primitive_emit fp sp s prim).curr_start_index = s.mesh.indices.length) := by
  by_cases hor : some s.curr_ctxt.scissor ≠ s.curr_scissor ∨
      some (sp (new_pipeline_key fp s.curr_ctxt)) ≠ s.curr_pipeline_id
  · by_cases hlt : s.curr_start_index < s.mesh.indices.length
    · refine Or.inr ⟨hlt, ?_, ?_⟩ <;>
        rcases hor with hsc | hpl <;>
          by_cases hpl2 : some (sp (new_pipeline_key fp s.curr_ctxt)) ≠ s.curr_pipeline_id <;>
            by_cases hsc2 : some s.curr_ctxt.scissor ≠ s.curr_scissor <;>
              first
              | (exact absurd hsc hsc2)
              | (exact absurd hpl hpl2)
              | simp [primitive_emit, hsc2, hpl2, push_draw_cmd_pos _ hlt, draw_ranges_append,
                  draw_ranges]
    · refine Or.inl ⟨?_, ?_⟩ <;>
        rcases hor with hsc | hpl <;>
          by_cases hpl2 : some (sp (new_pipeline_key fp s.curr_ctxt)) ≠ s.curr_pipeline_id <;>
            by_cases hsc2 : some s.curr_ctxt.scissor ≠ s.curr_scissor <;>
              first
              | (exact absurd hsc hsc2)
              | (exact absurd hpl hpl2)
              | simp [primitive_emit, hsc2, hpl2, push_draw_cmd_neg _ hlt, draw_ranges_append,
                  draw_ranges]
  · push_neg at hor
    refine Or.inl ⟨?_, ?_⟩ <;>
      simp [primitive_emit, hor.1, hor.2, draw_ranges_append, draw_ranges]

theorem run_cmds_nil (fp : FrameParams) (sp : NannouPipelineKey → Nat) (s : BatchState) :
    run_cmds fp sp s [] = Except.ok s := rfl

theorem run_cmds_cons_ok (fp : FrameParams) (sp : NannouPipelineKey → Nat)
    (s s₁ : BatchState) (c : DrawCommand) (cs : List DrawCommand)
    (h : process_cmd fp sp s c = Except.ok s₁) :
    run_cmds fp sp s (c :: cs) = run_cmds fp sp s₁ cs := by
  simp [run_cmds, h]

theorem run_cmds_append (fp : FrameParams) (sp : NannouPipelineKey → Nat) :
    ∀ (xs ys : List DrawCommand) (s s₁ : BatchState),
      run_cmds fp sp s xs = Except.ok s₁ →
      run_cmds fp sp s (xs ++ ys) = run_cmds fp sp s₁ ys := by
  intro xs
  induction xs with
  | nil =>
    intro ys s s₁ h
    rw [run_cmds] at h
    cases h
    rfl
  | cons c t ih =>
    intro ys s s₁ h
    rw [run_cmds] at h
    rw [List.cons_append, run_cmds]
    cases hc : process_cmd fp sp s c with
    | ok s₂ =>
      rw [hc] at h
      simpa using ih ys s₂ s₁ h
    | error e =>
      rw [hc] at h
      cases h

theorem run_cmds_preserve (fp : FrameParams) (sp : NannouPipelineKey → Nat)
    (P : BatchState → Prop)
    (hstep : ∀ s c s', P s → process_cmd fp sp s c = Except.ok s' → P s') :
    ∀ (cmds : List DrawCommand) (s s' : BatchState),
      P s → run_cmds fp sp s cmds = Except.ok s' → P s' := by
  intro cmds
  induction cmds with
  | nil =>
    intro s s' hs h
    rw [run_cmds] at h
    cases h
    exact hs
  | cons c t ih =>
    intro s s' hs h
    rw [run_cmds] at h
    cases hc : process_cmd fp sp s c with
    | ok s₁ =>
      rw [hc] at h
      exact ih s₁ s' (hstep s c s₁ hs hc) h
    | error e =>
      rw [hc] at h
      cases h

theorem process_cmd_prim_cases (fp : FrameParams) (sp : NannouPipelineKey → Nat)
    (s : BatchState) (prim : RenderPrim) (s' : BatchState)
    (h : process_cmd fp sp s (DrawCommand.primitive prim) = Except.ok s') :
    (prim.indices_added = [] ∧ prim.verts_added = [] ∧ s' = s) ∨
    (prim.indices_added ≠ [] ∧ s' = primitive_emit fp sp s prim) := by
  by_cases hi : prim.indices_added = []
  · by_cases hv : prim.verts_added = []
    · rw [process_cmd_prim_skip fp sp s prim hi hv] at h
      cases h
      exact Or.inl ⟨hi, hv, rfl⟩
    · rw [process_cmd_prim_degenerate fp sp s prim hi hv] at h
      cases h
  · rw [process_cmd_prim_grow fp sp s prim hi] at h
    cases h
    exact Or.inr ⟨hi, rfl⟩

theorem total_indices_append (ps1 ps2 : List RenderPrim) :
    total_indices (ps1 ++ ps2) = total_indices ps1 + total_indices ps2 := by
  simp [total_indices]

theorem run_prims_steady (fp : FrameParams) (sp : NannouPipelineKey → Nat) :
    ∀ (ps : List RenderPrim) (s : BatchState),
      s.curr_pipeline_id = some (sp (new_pipeline_key fp s.curr_ctxt)) →
      s.curr_scissor = some s.curr_ctxt.scissor →
      (∀ p ∈ ps, p.indices_added ≠ []) →
      ∃ s', run_cmds fp sp s (ps.map DrawCommand.primitive) = Except.ok s' ∧
        s'.curr_ctxt = s.curr_ctxt ∧
        s'.curr_start_index = s.curr_start_index ∧
        s'.curr_pipeline_id = s.curr_pipeline_id ∧
        s'.curr_scissor = s.curr_scissor ∧
        draw_ranges s'.render_commands = draw_ranges s.render_commands ∧
        s'.mesh.indices.length = s.mesh.indices.length + total_indices ps := by
  intro ps
  induction ps with
  | nil =>
    intro s hp hs _
    exact ⟨s, rfl, rfl, rfl, rfl, rfl, rfl, by simp [total_indices_nil]⟩
  | cons p t ih =>
    intro s hp hs hall
    have hpn : p.indices_added ≠ [] := hall p (List.mem_cons_self p t)
    have hstep := process_cmd_prim_grow fp sp s p hpn
    have hemit := primitive_emit_steady fp sp s p hp hs
    obtain ⟨s', hrun, hc1, hc2, hc3, hc4, hc5, hc6⟩ :=
      ih (primitive_emit fp sp s p) (by rw [hemit]; exact hp) (by rw [hemit]; exact hs)
        (fun q hq => hall q (List.mem_cons_of_mem p hq))
    refine ⟨s', ?_, ?_, ?_, ?_, ?_, ?_, ?_⟩
    · rw [List.map_cons, run_cmds_cons_ok fp sp s _ _ _ hstep]
      exact hrun
    · rw [hc1, hemit]
    · rw [hc2, hemit]
    · rw [hc3, hemit]
    · rw [hc4, hemit]
    · rw [hc5, hemit]
      simp [draw_ranges_append, draw_ranges]
    · rw [hc6, hemit, total_indices_cons]
      simp [render_primitive, Nat.add_assoc]

theorem run_prims_from_fresh (fp : FrameParams) (sp : NannouPipelineKey → Nat)
    (s : BatchState) (ps : List RenderPrim)
    (hp : s.curr_pipeline_id = none) (hs : s.curr_scissor = none)
    (hc : s.curr_start_index = s.mesh.indices.length)
    (hne : ps ≠ []) (hall : ∀ p ∈ ps, p.indices_added ≠ []) :
    ∃ s', run_cmds fp sp s (ps.map DrawCommand.primitive) = Except.ok s' ∧
      s'.curr_ctxt = s.curr_ctxt ∧
      s'.curr_start_index = s.curr_start_index ∧
      s'.curr_pipeline_id = some (sp (new_pipeline_key fp s.curr_ctxt)) ∧
      s'.curr_scissor = some s.curr_ctxt.scissor ∧
      draw_ranges s'.render_commands = draw_ranges s.render_commands ∧
      s'.mesh.indices.length = s.mesh.indices.length + total_indices ps := by
  obtain ⟨q, t, rfl⟩ := List.exists_cons_of_ne_nil hne
  have hqn : q.indices_added ≠ [] := hall q (List.mem_cons_self q t)
  have hstep := process_cmd_prim_grow fp sp s q hqn
  have hemit := primitive_emit_fresh fp sp s q hp hs hc
  obtain ⟨s', hrun, hc1, hc2, hc3, hc4, hc5, hc6⟩ :=
    run_prims_steady fp sp t (primitive_emit fp sp s q)
      (by rw [hemit]) (by rw [hemit])
      (fun r hr => hall r (List.mem_cons_of_mem q hr))
  refine ⟨s', ?_, ?_, ?_, ?_, ?_, ?_, ?_⟩
  · rw [List.map_cons, run_cmds_cons_ok fp sp s _ _ _ hstep]
    exact hrun
  · rw [hc1, hemit]
  · rw [hc2, hemit]
  · rw [hc3, hemit]
  · rw [hc4, hemit]
  · rw [hc5, hemit]
    simp [draw_ranges_append, draw_ranges]
  · rw [hc6, hemit, total_indices_cons]
    simp [render_primitive, Nat.add_assoc]

theorem finish_pass_mesh (s : BatchState) : (finish_pass s).mesh = s.mesh := rfl

theorem finish_pass_ctxt (s : BatchState) : (finish_pass s).curr_ctxt = s.curr_ctxt := rfl

theorem finish_pass_vmb (s : BatchState) :
    (finish_pass s).vertex_mode_buffer = s.vertex_mode_buffer := rfl

theorem finish_pass_ranges_pos (s : BatchState)
    (h : s.curr_start_index < s.mesh.indices.length) :
    draw_ranges (finish_pass s).render_commands =
      draw_ranges s.render_commands ++ [(s.curr_start_index, s.mesh.indices.length)] ∧
    (finish_pass s).curr_start_index = s.mesh.indices.length := by
  constructor <;> simp [finish_pass, push_draw_cmd_pos _ h, draw_ranges_append, draw_ranges]

theorem finish_pass_ranges_neg (s : BatchState)
    (h : ¬ s.curr_start_index < s.mesh.indices.length) :
    draw_ranges (finish_pass s).render_commands = draw_ranges s.render_commands ∧
    (finish_pass s).curr_start_index = s.curr_start_index := by
  constructor <;> simp [finish_pass, push_draw_cmd_neg _ h]

theorem prepare_view_mesh_ok (fp : FrameParams) (sp : NannouPipelineKey → Nat)
    (vmb : List VertexMode) (cmds : List DrawCommand) (s₁ : BatchState)
    (h : run_cmds fp sp (init_state vmb) cmds = Except.ok s₁) :
    prepare_view_mesh fp sp vmb cmds = Except.ok (finish_pass s₁) := by
  simp [prepare_view_mesh, h, Except.map]

theorem prepare_view_mesh_ok_inv (fp : FrameParams) (sp : NannouPipelineKey → Nat)
    (vmb : List VertexMode) (cmds : List DrawCommand) (st : BatchState)
    (h : prepare_view_mesh fp sp vmb cmds = Except.ok st) :
    ∃ s₁, run_cmds fp sp (init_state vmb) cmds = Except.ok s₁ ∧ st = finish_pass s₁ := by
  unfold prepare_view_mesh at h
  cases hr : run_cmds fp sp (init_state vmb) cmds with
  | ok s₁ =>
    rw [hr] at h
    simp [Except.map] at h
    exact ⟨s₁, rfl, h.symm⟩
  | error e =>
    rw [hr] at h
    simp [Except.map] at h

theorem total_indices_pos {ps : List RenderPrim} (hne : ps ≠ [])
    (hall : ∀ p ∈ ps, p.indices_added ≠ []) : 0 < total_indices ps := by
  obtain ⟨q, t, rfl⟩ := List.exists_cons_of_ne_nil hne
  have hqn : q.indices_added ≠ [] := hall q (List.mem_cons_self q t)
  have hq0 : q.indices_added.length ≠ 0 := by simpa [List.length_eq_zero] using hqn
  rw [total_indices_cons]
  omega

theorem run_prims_scissor_change (fp : FrameParams) (sp : NannouPipelineKey → Nat)
    (s : BatchState) (ps : List RenderPrim)
    (hp : s.curr_pipeline_id = some (sp (new_pipeline_key fp s.curr_ctxt)))
    (hs : some s.curr_ctxt.scissor ≠ s.curr_scissor)
    (hlt : s.curr_start_index < s.mesh.indices.length)
    (hne : ps ≠ []) (hall : ∀ p ∈ ps, p.indices_added ≠ []) :
    ∃ s', run_cmds fp sp s (ps.map DrawCommand.primitive) = Except.ok s' ∧
      s'.curr_ctxt = s.curr_ctxt ∧
      s'.curr_start_index = s.mesh.indices.length ∧
      s'.curr_pipeline_id = s.curr_pipeline_id ∧
      s'.curr_scissor = some s.curr_ctxt.scissor ∧
      draw_ranges s'.render_commands =
        draw_ranges s.render_commands ++ [(s.curr_start_index, s.mesh.indices.length)] ∧
      s'.mesh.indices.length = s.mesh.indices.length + total_indices ps := by
  obtain ⟨q, t, rfl⟩ := List.exists_cons_of_ne_nil hne
  have hqn : q.indices_added ≠ [] := hall q (List.mem_cons_self q t)
  have hstep := process_cmd_prim_grow fp sp s q hqn
  have hemit := primitive_emit_scissor_change fp sp s q hp hs
  rw [push_draw_cmd_pos s.render_commands hlt] at hemit
  obtain ⟨s', hrun, hc1, hc2, hc3, hc4, hc5, hc6⟩ :=
    run_prims_steady fp sp t (primitive_emit fp sp s q)
      (by rw [hemit]; exact hp) (by rw [hemit])
      (fun r hr => hall r (List.mem_cons_of_mem q hr))
  refine ⟨s', ?_, ?_, ?_, ?_, ?_, ?_, ?_⟩
  · rw [List.map_cons, run_cmds_cons_ok fp sp s _ _ _ hstep]
    exact hrun
  · rw [hc1, hemit]
  · rw [hc2, hemit]
  · rw [hc3, hemit]
  · rw [hc4, hemit]
  · rw [hc5, hemit]
    simp [draw_ranges_append, draw_ranges]
  · rw [hc6, hemit, total_indices_cons]
    simp [render_primitive, Nat.add_assoc]

/-- Claim C1: a drained sequence of primitives that all produce new indices,
rendered under a single context (hence sharing pipeline key, scissor and
texture), batches into exactly one `DrawIndexed` covering all their indices;
inserting a single `Context` command that changes only the scissor between
the two halves splits the output into exactly two `DrawIndexed` commands,
the first covering the indices of the primitives before the change and the
second covering those after it. -/
theorem batching_minimality (fp : FrameParams) (sp : NannouPipelineKey → Nat)
    (vmb : List VertexMode) (c : Context) (ps1 ps2 : List RenderPrim) (s2 : DrawScissor)
    (h1 : ps1 ≠ []) (h2 : ps2 ≠ [])
    (hall : ∀ p ∈ ps1 ++ ps2, p.indices_added ≠ [])
    (hsc : s2 ≠ c.scissor) :
    (∃ st, prepare_view_mesh fp sp vmb
        (DrawCommand.context c :: (ps1 ++ ps2).map DrawCommand.primitive) = Except.ok st ∧
      draw_ranges st.render_commands = [(0, total_indices (ps1 ++ ps2))]) ∧
    (∃ st, prepare_view_mesh fp sp vmb
        (DrawCommand.context c ::
          (ps1.map DrawCommand.primitive ++
            DrawCommand.context { c with scissor := s2 } :: ps2.map DrawCommand.primitive)) =
        Except.ok st ∧
      draw_ranges st.render_commands =
        [(0, total_indices ps1),
         (total_indices ps1, total_indices ps1 + total_indices ps2)]) := by
  have hall1 : ∀ p ∈ ps1, p.indices_added ≠ [] :=
    fun p hp => hall p (List.mem_append_left _ hp)
  have hall2 : ∀ p ∈ ps2, p.indices_added ≠ [] :=
    fun p hp => hall p (List.mem_append_right _ hp)
  have hn1 : 0 < total_indices ps1 := total_indices_pos h1 hall1
  have hn2 : 0 < total_indices ps2 := total_indices_pos h2 hall2
  have hctx : process_cmd fp sp (init_state vmb) (DrawCommand.context c) =
      Except.ok { init_state vmb with curr_ctxt := c } :=
    process_cmd_context fp sp (init_state vmb) c
  constructor
  · -- no scissor change: one draw covering everything
    have hne : ps1 ++ ps2 ≠ [] :=
      fun hcontra => h1 (List.append_eq_nil.mp hcontra).1
    obtain ⟨sE, hrun, he1, he2, he3, he4, he5, he6⟩ :=
      run_prims_from_fresh fp sp { init_state vmb with curr_ctxt := c } (ps1 ++ ps2)
        rfl rfl rfl hne hall
    have hcsi : sE.curr_start_index = 0 := by rw [he2]; rfl
    have hlen : sE.mesh.indices.length = total_indices (ps1 ++ ps2) := by
      rw [he6]; simp [init_state]
    have hranges : draw_ranges sE.render_commands = [] := by
      rw [he5]; simp [init_state, draw_ranges]
    obtain ⟨hr1, hr2⟩ := finish_pass_ranges_pos sE
      (by rw [hcsi, hlen]; exact total_indices_pos hne hall)
    refine ⟨finish_pass sE, ?_, ?_⟩
    · apply prepare_view_mesh_ok
      rw [run_cmds_cons_ok fp sp (init_state vmb) _ _ _ hctx]
      exact hrun
    · rw [hr1, hranges, hcsi, hlen]
      simp
  · -- scissor change inserted: exactly two draws
    obtain ⟨sA, hrunA, ha1, ha2, ha3, ha4, ha5, ha6⟩ :=
      run_prims_from_fresh fp sp { init_state vmb with curr_ctxt := c } ps1
        rfl rfl rfl h1 hall1
    have hcsiA : sA.curr_start_index = 0 := by rw [ha2]; rfl
    have hlenA : sA.mesh.indices.length = total_indices ps1 := by
      rw [ha6]; simp [init_state]
    have hrangesA : draw_ranges sA.render_commands = [] := by
      rw [ha5]; simp [init_state, draw_ranges]
    have hctx2 : process_cmd fp sp sA (DrawCommand.context { c with scissor := s2 }) =
        Except.ok { sA with curr_ctxt := { c with scissor := s2 } } :=
      process_cmd_context fp sp sA { c with scissor := s2 }
    have hpB : ({ sA with curr_ctxt := { c with scissor := s2 } } : BatchState).curr_pipeline_id =
        some (sp (new_pipeline_key fp
          ({ sA with curr_ctxt := { c with scissor := s2 } } : BatchState).curr_ctxt)) := by
      show sA.curr_pipeline_id = _
      rw [ha3]
      rfl
    have hsB : some ({ sA with curr_ctxt := { c with scissor := s2 } } : BatchState).curr_ctxt.scissor ≠
        ({ sA with curr_ctxt := { c with scissor := s2 } } : BatchState).curr_scissor := by
      show some s2 ≠ sA.curr_scissor
      rw [ha4]
      intro hcontra
      exact hsc (Option.some.inj hcontra)
    have hltB : ({ sA with curr_ctxt := { c with scissor := s2 } } : BatchState).curr_start_index <
        ({ sA with curr_ctxt := { c with scissor := s2 } } : BatchState).mesh.indices.length := by
      show sA.curr_start_index < sA.mesh.indices.length
      rw [hcsiA, hlenA]
      exact hn1
    obtain ⟨sD, hrunD, hd1, hd2, hd3, hd4, hd5, hd6⟩ :=
      run_prims_scissor_change fp sp { sA with curr_ctxt := { c with scissor := s2 } } ps2
        hpB hsB hltB h2 hall2
    have hcsiD : sD.curr_start_index = total_indices ps1 := by
      rw [hd2]
      exact hlenA
    have hlenD : sD.mesh.indices.length = total_indices ps1 + total_indices ps2 := by
      rw [hd6]
      show sA.mesh.indices.length + total_indices ps2 = _
      rw [hlenA]
    have hrangesD : draw_ranges sD.render_commands = [(0, total_indices ps1)] := by
      rw [hd5]
      show draw_ranges sA.render_commands ++ [(sA.curr_start_index, sA.mesh.indices.length)] = _
      rw [hrangesA, hcsiA, hlenA]
      rfl
    obtain ⟨hr1, hr2⟩ := finish_pass_ranges_pos sD
      (by rw [hcsiD, hlenD]; omega)
    refine ⟨finish_pass sD, ?_, ?_⟩
    · apply prepare_view_mesh_ok
      rw [run_cmds_cons_ok fp sp (init_state vmb) _ _ _ hctx]
      rw [run_cmds_append fp sp (ps1.map DrawCommand.primitive) _ _ sA hrunA]
      rw [run_cmds_cons_ok fp sp sA _ _ _ hctx2]
      exact hrunD
    · rw [hr1, hrangesD, hcsiD, hlenD]
      rfl

/-- Witness for C1: two three-index primitives under the default context,
split by a context change to a `NoOverlap` scissor. -/
theorem batching_minimality_witness :
    (∃ st, prepare_view_mesh fpW spW []
        (DrawCommand.context cW :: ([pW1] ++ [pW2]).map DrawCommand.primitive) = Except.ok st ∧
      draw_ranges st.render_commands = [(0, total_indices ([pW1] ++ [pW2]))]) ∧
    (∃ st, prepare_view_mesh fpW spW []
        (DrawCommand.context cW ::
          ([pW1].map DrawCommand.primitive ++
            DrawCommand.context { cW with scissor := DrawScissor.noOverlap } ::
              [pW2].map DrawCommand.primitive)) = Except.ok st ∧
      draw_ranges st.render_commands =
        [(0, total_indices [pW1]),
         (total_indices [pW1], total_indices [pW1] + total_indices [pW2])]) :=
  batching_minimality fpW spW [] cW [pW1] [pW2] DrawScissor.noOverlap
    (by decide) (by decide) (by decide) (by decide)

theorem scissor_px_no_overlap_zero (fp : FrameParams) :
    (scissor_px fp DrawScissor.noOverlap).width = 0 ∧
    (scissor_px fp DrawScissor.noOverlap).height = 0 := by
  constructor <;> simp [scissor_px, Rect.from_w_h, Rect.w, Rect.h, pt_to_px]

theorem scissor_px_rect_no_overlap_zero (fp : FrameParams) (r : Rect)
    (h : Rect.overlap (full_rect fp) r = none) :
    (scissor_px fp (DrawScissor.rect r)).width = 0 ∧
    (scissor_px fp (DrawScissor.rect r)).height = 0 := by
  constructor <;> simp [scissor_px, h, Rect.from_w_h, Rect.w, Rect.h, pt_to_px]

theorem primitive_emit_indices_len (fp : FrameParams) (sp : NannouPipelineKey → Nat)
    (s : BatchState) (prim : RenderPrim) :
    (primitive_emit fp sp s prim).mesh.indices.length =
      s.mesh.indices.length + prim.indices_added.length := by
  simp [primitive_emit_mesh, render_primitive]

theorem primitive_emit_start_vertex (fp : FrameParams) (sp : NannouPipelineKey → Nat)
    (s : BatchState) (prim : RenderPrim)
    (hin : ∀ v a b, RenderCommand.drawIndexed v a b ∈ s.render_commands → v = 0) :
    ∀ v a b, RenderCommand.drawIndexed v a b ∈
      (primitive_emit fp sp s prim).render_commands → v = 0 := by
  obtain ⟨d, pl, sc, hd, hpl, hsc, heq⟩ := primitive_emit_commands_shape fp sp s prim
  intro v a b hmem
  rw [heq] at hmem
  rcases List.mem_append.1 hmem with hm | hm
  · rcases List.mem_append.1 hm with hm2 | hm2
    · rcases List.mem_append.1 hm2 with hm3 | hm3
      · exact hin v a b hm3
      · rcases hd with rfl | ⟨x, y, rfl⟩
        · cases hm3
        · have heq2 := List.mem_singleton.1 hm3
          injection heq2 with h1 h2 h3
    · rcases hpl with rfl | ⟨i, rfl⟩
      · cases hm2
      · exact RenderCommand.noConfusion (List.mem_singleton.1 hm2)
  · rcases List.mem_cons.1 hm with heq2 | hm2
    · exact RenderCommand.noConfusion heq2
    · rcases hsc with rfl | ⟨r, rfl⟩
      · cases hm2
      · exact RenderCommand.noConfusion (List.mem_singleton.1 hm2)

theorem ranges_ok_init (vmb : List VertexMode) : ranges_ok (init_state vmb) :=
  ⟨rfl, Nat.le_refl _, fun _ _ _ h => absurd h (List.not_mem_nil _)⟩

theorem ranges_ok_step (fp : FrameParams) (sp : NannouPipelineKey → Nat) :
    ∀ (s : BatchState) (c : DrawCommand) (s' : BatchState), ranges_ok s →
      process_cmd fp sp s c = Except.ok s' → ranges_ok s' := by
  intro s c s' hin h
  cases c with
  | context ctxt =>
    rw [process_cmd_context] at h
    cases h
    exact hin
  | primitive prim =>
    rcases process_cmd_prim_cases fp sp s prim s' h with ⟨_, _, rfl⟩ | ⟨hi, rfl⟩
    · exact hin
    · obtain ⟨hchain, hle, hv⟩ := hin
      have hlen := primitive_emit_indices_len fp sp s prim
      have hv' := primitive_emit_start_vertex fp sp s prim hv
      rcases primitive_emit_ranges fp sp s prim with ⟨hr, hc⟩ | ⟨hlt, hr, hc⟩
      · exact ⟨by rw [hr, hc]; exact hchain, by rw [hc, hlen]; omega, hv'⟩
      · refine ⟨?_, ?_, hv'⟩
        · rw [hr, hc]
          exact chain_from_append_one hchain hlt rfl
        · rw [hc, hlen]
          omega

theorem ranges_ok_finish (s : BatchState) (h : ranges_ok s) : ranges_ok (finish_pass s) := by
  obtain ⟨hchain, hle, hv⟩ := h
  by_cases hlt : s.curr_start_index < s.mesh.indices.length
  · obtain ⟨hr, hc⟩ := finish_pass_ranges_pos s hlt
    refine ⟨?_, ?_, ?_⟩
    · rw [hr, hc]
      exact chain_from_append_one hchain hlt rfl
    · rw [hc, finish_pass_mesh]
    · intro v a b hmem
      have hrc : (finish_pass s).render_commands = s.render_commands ++
          [RenderCommand.drawIndexed 0 s.curr_start_index s.mesh.indices.length] := by
        simp [finish_pass, push_draw_cmd_pos _ hlt]
      rw [hrc] at hmem
      rcases List.mem_append.1 hmem with hm | hm
      · exact hv v a b hm
      · have heq2 := List.mem_singleton.1 hm
        injection heq2 with h1 h2 h3
  · obtain ⟨hr, hc⟩ := finish_pass_ranges_neg s hlt
    exact ⟨by rw [hr, hc]; exact hchain, by rw [hc, finish_pass_mesh]; exact hle,
      fun v a b hmem => hv v a b (by
        have hrc : (finish_pass s).render_commands = s.render_commands := by
          simp [finish_pass, push_draw_cmd_neg _ hlt]
        rwa [hrc] at hmem)⟩

/-- Claim C5: in every output of the batching pass, each `DrawIndexed` has a
non-empty range and `start_vertex = 0`, the ranges tile `0..f` contiguously
for some `f` not exceeding the final mesh's index count (first range starts
at 0, each subsequent one starts where the previous ended), and every
range's end is at most the mesh's index count. -/
theorem prepare_view_mesh_draw_validity (fp : FrameParams) (sp : NannouPipelineKey → Nat)
    (vmb : List VertexMode) (cmds : List DrawCommand) (st : BatchState)
    (h : prepare_view_mesh fp sp vmb cmds = Except.ok st) :
    (∀ v a b, RenderCommand.drawIndexed v a b ∈ st.render_commands →
      v = 0 ∧ a < b ∧ b ≤ st.mesh.indices.length) ∧
    ∃ f, chain_from 0 (draw_ranges st.render_commands) f ∧ f ≤ st.mesh.indices.length := by
  obtain ⟨s₁, hrun, rfl⟩ := prepare_view_mesh_ok_inv fp sp vmb cmds st h
  obtain ⟨hchain, hle, hv⟩ := ranges_ok_finish s₁
    (run_cmds_preserve fp sp ranges_ok (ranges_ok_step fp sp) cmds (init_state vmb) s₁
      (ranges_ok_init vmb) hrun)
  constructor
  · intro v a b hmem
    obtain ⟨_, h2, h3⟩ := chain_from_mem hchain (a, b) (mem_draw_ranges hmem)
    exact ⟨hv v a b hmem, h2, Nat.le_trans h3 hle⟩
  · exact ⟨_, hchain, hle⟩

/-- Witness for C5 at the concrete witness input. -/
theorem prepare_view_mesh_draw_validity_witness :
    prepare_view_mesh fpW spW [] cmdsW = Except.ok stW ∧
    ((∀ v a b, RenderCommand.drawIndexed v a b ∈ stW.render_commands →
      v = 0 ∧ a < b ∧ b ≤ stW.mesh.indices.length) ∧
    ∃ f, chain_from 0 (draw_ranges stW.render_commands) f ∧ f ≤ stW.mesh.indices.length) :=
  ⟨rfl, prepare_view_mesh_draw_validity fpW spW [] cmdsW stW rfl⟩

/-- Counterexample to claim C2 as stated: a primitive rendered entirely under
a `NoOverlap` scissor still contributes three indices, and the pass's output
contains a `DrawIndexed` of non-zero length `0..3` covering exactly those
indices — the scissor collapse affects only the `SetScissor` payload, it
does not shrink or omit the primitive's draw range. -/
theorem scissor_clipping_counterexample :
    Except.map (fun st => draw_ranges st.render_commands)
      (prepare_view_mesh fpW spW [] cmdsX) = Except.ok [(0, 3)] ∧
    pW1.indices_added.length = 3 ∧
    (last_ctxt cmdsX).scissor = DrawScissor.noOverlap :=
  ⟨rfl, rfl, rfl⟩

/-- Claim C2 (amended): a scissor entirely outside the viewport (`NoOverlap`,
or a `Rect` with no overlap with the full window rectangle) collapses the
`SetScissor` rectangle to zero area (width and height both 0), and the
output never contains an empty draw range (every emitted `DrawIndexed` range
is non-empty); the indices of primitives rendered under such a scissor are
however still covered by `DrawIndexed` commands — clipping is performed by
the GPU via the zero-area scissor, not by omitting draws. -/
theorem scissor_clipping_amended (fp : FrameParams) (sp : NannouPipelineKey → Nat)
    (vmb : List VertexMode) (cmds : List DrawCommand) (st : BatchState)
    (h : prepare_view_mesh fp sp vmb cmds = Except.ok st) :
    ((scissor_px fp DrawScissor.noOverlap).width = 0 ∧
     (scissor_px fp DrawScissor.noOverlap).height = 0) ∧
    (∀ r : Rect, Rect.overlap (full_rect fp) r = none →
      (scissor_px fp (DrawScissor.rect r)).width = 0 ∧
      (scissor_px fp (DrawScissor.rect r)).height = 0) ∧
    (∀ v a b, RenderCommand.drawIndexed v a b ∈ st.render_commands → a < b) := by
  refine ⟨scissor_px_no_overlap_zero fp,
    fun r hr => scissor_px_rect_no_overlap_zero fp r hr, ?_⟩
  obtain ⟨s₁, hrun, rfl⟩ := prepare_view_mesh_ok_inv fp sp vmb cmds st h
  obtain ⟨hchain, _, _⟩ := ranges_ok_finish s₁
    (run_cmds_preserve fp sp ranges_ok (ranges_ok_step fp sp) cmds (init_state vmb) s₁
      (ranges_ok_init vmb) hrun)
  intro v a b hmem
  exact (chain_from_mem hchain (a, b) (mem_draw_ranges hmem)).2.1

/-- Witness for the amended C2 at the concrete witness input. -/
theorem scissor_clipping_amended_witness :
    prepare_view_mesh fpW spW [] cmdsW = Except.ok stW ∧
    (((scissor_px fpW DrawScissor.noOverlap).width = 0 ∧
      (scissor_px fpW DrawScissor.noOverlap).height = 0) ∧
    (∀ r : Rect, Rect.overlap (full_rect fpW) r = none →
      (scissor_px fpW (DrawScissor.rect r)).width = 0 ∧
      (scissor_px fpW (DrawScissor.rect r)).height = 0) ∧
    (∀ v a b, RenderCommand.drawIndexed v a b ∈ stW.render_commands → a < b)) :=
  ⟨rfl, scissor_clipping_amended fpW spW [] cmdsW stW rfl⟩

/-- Claim C3: when a primitive's tessellation appends no indices, the batcher
asserts that no vertices were appended either (a violated assertion is the
fatal `InconsistentMeshState` condition), and otherwise it emits no render
commands and changes no state, continuing with the next command. -/
theorem degenerate_primitive_guard (fp : FrameParams) (sp : NannouPipelineKey → Nat)
    (s : BatchState) (prim : RenderPrim)
    (hidx : prim.indices_added = []) :
    (prim.verts_added ≠ [] →
      process_cmd fp sp s (DrawCommand.primitive prim) =
        Except.error BatchError.inconsistentMeshState) ∧
    (prim.verts_added = [] →
      process_cmd fp sp s (DrawCommand.primitive prim) = Except.ok s) ∧
    (∀ rest, prim.verts_added = [] →
      run_cmds fp sp s (DrawCommand.primitive prim :: rest) = run_cmds fp sp s rest) := by
  refine ⟨fun hv => process_cmd_prim_degenerate fp sp s prim hidx hv,
          fun hv => process_cmd_prim_skip fp sp s prim hidx hv,
          fun rest hv => ?_⟩
  rw [run_cmds_cons_ok fp sp s s _ rest (process_cmd_prim_skip fp sp s prim hidx hv)]

/-- Witness for C3: the degenerate primitive `pW0` (one vertex, no indices)
trips the assertion. -/
theorem degenerate_primitive_guard_witness :
    pW0.indices_added = [] ∧
    ((pW0.verts_added ≠ [] →
      process_cmd fpW spW (init_state []) (DrawCommand.primitive pW0) =
        Except.error BatchError.inconsistentMeshState) ∧
    (pW0.verts_added = [] →
      process_cmd fpW spW (init_state []) (DrawCommand.primitive pW0) =
        Except.ok (init_state [])) ∧
    (∀ rest, pW0.verts_added = [] →
      run_cmds fpW spW (init_state []) (DrawCommand.primitive pW0 :: rest) =
        run_cmds fpW spW (init_state []) rest)) :=
  ⟨rfl, degenerate_primitive_guard fpW spW (init_state []) pW0 rfl⟩

theorem run_cmds_last_ctxt (fp : FrameParams) (sp : NannouPipelineKey → Nat) :
    ∀ (cmds : List DrawCommand) (s s' : BatchState),
      run_cmds fp sp s cmds = Except.ok s' →
      s'.curr_ctxt = cmds.foldl
        (fun acc cmd =>
          match cmd with
          | DrawCommand.context ctxt => ctxt
          | DrawCommand.primitive _ => acc)
        s.curr_ctxt := by
  intro cmds
  induction cmds with
  | nil =>
    intro s s' h
    rw [run_cmds] at h
    cases h
    rfl
  | cons cmd t ih =>
    intro s s' h
    cases cmd with
    | context ctxt =>
      rw [run_cmds_cons_ok fp sp s _ _ t (process_cmd_context fp sp s ctxt)] at h
      rw [List.foldl_cons]
      exact ih _ s' h
    | primitive prim =>
      rw [run_cmds] at h
      cases hc : process_cmd fp sp s (DrawCommand.primitive prim) with
      | ok s₁ =>
        rw [hc] at h
        have hctxeq : s₁.curr_ctxt = s.curr_ctxt := by
          rcases process_cmd_prim_cases fp sp s prim s₁ hc with ⟨_, _, rfl⟩ | ⟨_, rfl⟩
          · rfl
          · exact primitive_emit_ctxt fp sp s prim
        rw [List.foldl_cons, ih s₁ s' h, hctxeq]
      | error e =>
        rw [hc] at h
        cases h

/-- Claim C4: after the batching pass has replayed the drained commands, the
context tracker holds exactly the payload of the last `Context` command seen
(full replacement, no merging), or the default context when none was
seen. -/
theorem context_replacement (fp : FrameParams) (sp : NannouPipelineKey → Nat)
    (vmb : List VertexMode) (cmds : List DrawCommand) (st : BatchState)
    (h : prepare_view_mesh fp sp vmb cmds = Except.ok st) :
    st.curr_ctxt = last_ctxt cmds := by
  obtain ⟨s₁, hrun, rfl⟩ := prepare_view_mesh_ok_inv fp sp vmb cmds st h
  rw [finish_pass_ctxt]
  unfold last_ctxt
  exact run_cmds_last_ctxt fp sp cmds (init_state vmb) s₁ hrun

/-- Witness for C4 at the concrete witness input (last context is `cW2`). -/
theorem context_replacement_witness :
    prepare_view_mesh fpW spW [] cmdsW = Except.ok stW ∧
    stW.curr_ctxt = last_ctxt cmdsW :=
  ⟨rfl, context_replacement fpW spW [] cmdsW stW rfl⟩

/-- Claim C6: whenever a primitive that produced new indices requires
commands, the state-change commands appended for it appear in the fixed
order pipeline (if changed), then bind group (always), then scissor (if
changed), after an optional flushed `DrawIndexed`. -/
theorem state_change_order (fp : FrameParams) (sp : NannouPipelineKey → Nat)
    (s : BatchState) (prim : RenderPrim) (st : BatchState)
    (hidx : prim.indices_added ≠ [])
    (h : process_cmd fp sp s (DrawCommand.primitive prim) = Except.ok st) :
    ∃ d pl sc,
      (d = [] ∨ ∃ x y : Nat, d = [RenderCommand.drawIndexed 0 x y]) ∧
      (pl = [] ∨ ∃ i, pl = [RenderCommand.setPipeline i]) ∧
      (sc = [] ∨ ∃ r, sc = [RenderCommand.setScissor r]) ∧
      st.render_commands =
        s.render_commands ++ d ++ pl ++
          RenderCommand.setBindGroup fp.default_texture :: sc := by
  rcases process_cmd_prim_cases fp sp s prim st h with ⟨hi, _, _⟩ | ⟨_, rfl⟩
  · exact absurd hi hidx
  · exact primitive_emit_commands_shape fp sp s prim

/-- Witness for C6: the first witness primitive processed from the initial
state. -/
theorem state_change_order_witness :
    pW1.indices_added ≠ [] ∧
    process_cmd fpW spW (init_state []) (DrawCommand.primitive pW1) = Except.ok stW6 ∧
    ∃ d pl sc,
      (d = [] ∨ ∃ x y : Nat, d = [RenderCommand.drawIndexed 0 x y]) ∧
      (pl = [] ∨ ∃ i, pl = [RenderCommand.setPipeline i]) ∧
      (sc = [] ∨ ∃ r, sc = [RenderCommand.setScissor r]) ∧
      stW6.render_commands =
        (init_state []).render_commands ++ d ++ pl ++
          RenderCommand.setBindGroup fpW.default_texture :: sc :=
  ⟨by decide, rfl, state_change_order fpW spW (init_state []) pW1 stW6 (by decide) rfl⟩

/-- Claim C7: a `Context` command changes only the batcher's current-context
tracker; the mesh, the command list, the cursor, and the tracked
pipeline/scissor/texture (and the vertex-mode channel) are untouched. -/
theorem context_cmd_no_direct_output (fp : FrameParams) (sp : NannouPipelineKey → Nat)
    (s : BatchState) (ctxt : Context) :
    ∃ s', process_cmd fp sp s (DrawCommand.context ctxt) = Except.ok s' ∧
      s'.curr_ctxt = ctxt ∧
      s'.mesh = s.mesh ∧
      s'.render_commands = s.render_commands ∧
      s'.curr_start_index = s.curr_start_index ∧
      s'.curr_pipeline_id = s.curr_pipeline_id ∧
      s'.curr_scissor = s.curr_scissor ∧
      s'.curr_texture_handle = s.curr_texture_handle ∧
      s'.vertex_mode_buffer = s.vertex_mode_buffer :=
  ⟨{ s with curr_ctxt := ctxt }, rfl, rfl, rfl, rfl, rfl, rfl, rfl, rfl, rfl⟩

theorem foldl_record_cmd :
    ∀ (cs : List DrawCommand) (l : List DrawCommand),
      cs.foldl record_cmd l = l ++ cs := by
  intro cs
  induction cs with
  | nil => intro l; simp
  | cons c t ih =>
    intro l
    rw [List.foldl_cons, ih]
    simp [record_cmd]

/-- Claim C8: draining the log after any sequence of recordings yields
exactly the recorded commands in FIFO order (no drops, no reordering) and
leaves the log empty for the next frame. -/
theorem drain_commands_fifo (cs : List DrawCommand) :
    drain_commands (cs.foldl record_cmd empty_log) = (cs, empty_log) := by
  rw [foldl_record_cmd]
  simp [drain_commands, empty_log]

theorem vmb_parallel_step (fp : FrameParams) (sp : NannouPipelineKey → Nat) :
    ∀ (s : BatchState) (c : DrawCommand) (s' : BatchState), vmb_parallel s →
      process_cmd fp sp s c = Except.ok s' → vmb_parallel s' := by
  intro s c s' hin h
  cases c with
  | context ctxt =>
    rw [process_cmd_context] at h
    cases h
    exact hin
  | primitive prim =>
    rcases process_cmd_prim_cases fp sp s prim s' h with ⟨_, _, rfl⟩ | ⟨_, rfl⟩
    · exact hin
    · unfold vmb_parallel at hin ⊢
      rw [primitive_emit_vmb, primitive_emit_mesh]
      simp only [render_primitive, List.length_append, List.length_replicate]
      omega

/-- Claim C9: starting from an empty vertex-mode buffer, after every step of
the pass the buffer has exactly one entry per mesh vertex, and each
primitive that produced indices appended exactly its vertex count of entries
all carrying its returned vertex mode. -/
theorem vertex_mode_channel_parallel (fp : FrameParams) (sp : NannouPipelineKey → Nat)
    (cmds : List DrawCommand) (st : BatchState)
    (h : prepare_view_mesh fp sp [] cmds = Except.ok st) :
    st.vertex_mode_buffer.length = st.mesh.points.length ∧
    (∀ (s : BatchState) (prim : RenderPrim) (s' : BatchState),
      s.vertex_mode_buffer.length = s.mesh.points.length →
      prim.indices_added ≠ [] →
      process_cmd fp sp s (DrawCommand.primitive prim) = Except.ok s' →
      s'.vertex_mode_buffer =
        s.vertex_mode_buffer ++ List.replicate prim.verts_added.length prim.vertex_mode) := by
  constructor
  · obtain ⟨s₁, hrun, rfl⟩ := prepare_view_mesh_ok_inv fp sp [] cmds st h
    have hpar : vmb_parallel s₁ :=
      run_cmds_preserve fp sp vmb_parallel (vmb_parallel_step fp sp) cmds (init_state []) s₁
        rfl hrun
    show (finish_pass s₁).vertex_mode_buffer.length = (finish_pass s₁).mesh.points.length
    rw [finish_pass_vmb, finish_pass_mesh]
    exact hpar
  · intro s prim s' hpar hidx hstep
    rcases process_cmd_prim_cases fp sp s prim s' hstep with ⟨hi, _, _⟩ | ⟨_, rfl⟩
    · exact absurd hi hidx
    · rw [primitive_emit_vmb]
      have hcount : (s.mesh.points ++ prim.verts_added).length -
          s.vertex_mode_buffer.length = prim.verts_added.length := by
        rw [List.length_append, hpar]
        omega
      rw [hcount]

/-- Witness for C9 at the concrete witness input. -/
theorem vertex_mode_channel_parallel_witness :
    prepare_view_mesh fpW spW [] cmdsW = Except.ok stW ∧
    (stW.vertex_mode_buffer.length = stW.mesh.points.length ∧
    (∀ (s : BatchState) (prim : RenderPrim) (s' : BatchState),
      s.vertex_mode_buffer.length = s.mesh.points.length →
      prim.indices_added ≠ [] →
      process_cmd fpW spW s (DrawCommand.primitive prim) = Except.ok s' →
      s'.vertex_mode_buffer =
        s.vertex_mode_buffer ++ List.replicate prim.verts_added.length prim.vertex_mode)) :=
  ⟨rfl, vertex_mode_channel_parallel fpW spW cmdsW stW rfl⟩

theorem commands_headed_step (fp : FrameParams) (sp : NannouPipelineKey → Nat) :
    ∀ (s : BatchState) (c : DrawCommand) (s' : BatchState), commands_headed s →
      process_cmd fp sp s c = Except.ok s' → commands_headed s' := by
  intro s c s' hin h
  cases c with
  | context ctxt =>
    rw [process_cmd_context] at h
    cases h
    rcases hin with ⟨h1, h2, h3, h4, h5⟩ | ⟨i, t, r, rest, heq⟩
    · exact Or.inl ⟨h1, h2, h3, h4, h5⟩
    · exact Or.inr ⟨i, t, r, rest, heq⟩
  | primitive prim =>
    rcases process_cmd_prim_cases fp sp s prim s' h with ⟨_, _, rfl⟩ | ⟨hi, rfl⟩
    · exact hin
    · rcases hin with ⟨h1, h2, h3, h4, h5⟩ | ⟨i, t, r, rest, heq⟩
      · have hemit := primitive_emit_fresh fp sp s prim h2 h3 (by rw [h4, h5])
        right
        refine ⟨sp (new_pipeline_key fp s.curr_ctxt), fp.default_texture,
          scissor_px fp s.curr_ctxt.scissor, [], ?_⟩
        rw [hemit]
        show s.render_commands ++ _ = _
        rw [h1]
        rfl
      · right
        obtain ⟨d, pl, sc, _, _, _, heq2⟩ := primitive_emit_commands_shape fp sp s prim
        rw [heq2, heq]
        exact ⟨i, t, r, rest ++ d ++ pl ++
          RenderCommand.setBindGroup fp.default_texture :: sc, by simp⟩

theorem commands_headed_finish (s : BatchState) (h : commands_headed s) :
    commands_headed (finish_pass s) := by
  rcases h with ⟨h1, h2, h3, h4, h5⟩ | ⟨i, t, r, rest, heq⟩
  · have hne : ¬ s.curr_start_index < s.mesh.indices.length := by omega
    left
    refine ⟨?_, h2, h3, ?_, h5⟩
    · show (push_draw_cmd _ _ _).2 = []
      rw [push_draw_cmd_neg _ hne, h1]
    · show (push_draw_cmd _ _ _).1 = 0
      rw [push_draw_cmd_neg _ hne, h4]
  · right
    by_cases hlt : s.curr_start_index < s.mesh.indices.length
    · refine ⟨i, t, r,
        rest ++ [RenderCommand.drawIndexed 0 s.curr_start_index s.mesh.indices.length], ?_⟩
      show (push_draw_cmd _ _ _).2 = _
      rw [push_draw_cmd_pos _ hlt, heq]
      simp
    · refine ⟨i, t, r, rest, ?_⟩
      show (push_draw_cmd _ _ _).2 = _
      rw [push_draw_cmd_neg _ hlt, heq]

/-- Claim C10: a non-empty output command list always begins with
`SetPipeline`, `SetBindGroup`, `SetScissor` — in particular all three appear
before the first `DrawIndexed`, because the tracked pipeline and scissor
start each pass as `none`, so the first index-producing primitive triggers
all three state-change commands. -/
theorem draws_after_state_setup (fp : FrameParams) (sp : NannouPipelineKey → Nat)
    (vmb : List VertexMode) (cmds : List DrawCommand) (st : BatchState)
    (h : prepare_view_mesh fp sp vmb cmds = Except.ok st)
    (hne : st.render_commands ≠ []) :
    ∃ i t r rest, st.render_commands =
      RenderCommand.setPipeline i :: RenderCommand.setBindGroup t ::
        RenderCommand.setScissor r :: rest := by
  obtain ⟨s₁, hrun, rfl⟩ := prepare_view_mesh_ok_inv fp sp vmb cmds st h
  have hinv : commands_headed (finish_pass s₁) :=
    commands_headed_finish s₁
      (run_cmds_preserve fp sp commands_headed (commands_headed_step fp sp) cmds
        (init_state vmb) s₁ (Or.inl ⟨rfl, rfl, rfl, rfl, rfl⟩) hrun)
  rcases hinv with ⟨h1, _⟩ | ⟨i, t, r, rest, heq⟩
  · exact absurd h1 hne
  · exact ⟨i, t, r, rest, heq⟩

/-- Witness for C10 at the concrete witness input. -/
theorem draws_after_state_setup_witness :
    prepare_view_mesh fpW spW [] cmdsW = Except.ok stW ∧
    stW.render_commands ≠ [] ∧
    ∃ i t r rest, stW.render_commands =
      RenderCommand.setPipeline i :: RenderCommand.setBindGroup t ::
        RenderCommand.setScissor r :: rest :=
  ⟨rfl, by decide, draws_after_state_setup fpW spW [] cmdsW stW rfl (by decide)⟩
